import Mathlib

/-!
Verification of the ingestion orchestrator in `adder/adder.go` of
`ipfs-cluster`.  The orchestrator (`Adder`) turns an ordered stream of
file-like inputs into a content DAG and hands the raw root to a pluggable
`ClusterDAGService` for cluster-specific finalization.

The Go code is shallowly embedded as a pure state/trace machine:

* the external collaborators (the file source `files.File`, the content
  DAG builder `ipfsadd.Adder`, the `ClusterDAGService`, the hash-function
  registry and the CID-prefix constructor) are represented by explicit
  oracles in an `Env` record;
* every externally visible action of one run (configuring the builder,
  each `AddFile` call, each progress emission, each finalize call, closing
  the output channel, cancelling the context) is recorded in an event
  trace, so that claims about call counts and call ordering become
  statements about the trace;
* the Go context is represented by a cancellation flag that is set once
  (`setContext`) plus an optional iteration index `cancelAt` at which the
  derived context becomes Done, matching the `select`/`ctx.Done()` check
  performed at the top of every loop iteration.
-/

namespace IpfsCluster

/-- Go errors that the orchestrator can observe or produce.  `canceled` is
`context.Canceled`, the error returned by `ctx.Err()` on a cancelled
context; the two configuration errors carry the offending value exactly as
`FromFiles` formats them. -/
inductive GoErr where
  | canceled : GoErr
  | badCidVersion (v : Int) : GoErr
  | unrecognizedHashFun (s : String) : GoErr
  | msg (s : String) : GoErr
deriving DecidableEq, Repr

/-- Modelled from the spec: `api.AddParams` (defined outside `src/`) — the
immutable set of recognized ingestion options read by `FromFiles`
(§3 of the spec), plus a field `extra` standing for the further
cluster-level options the real `api.AddParams` carries and `FromFiles`
never reads. -/
structure AddParams where
  Hidden : Bool
  Layout : String
  RawLeaves : Bool
  Wrap : Bool
  Chunker : String
  Progress : Bool
  CidVersion : Int
  HashFun : String
  extra : Nat := 0
deriving DecidableEq, Repr

/-- Modelled from the spec: the fixed hash-function registry
(`multihash.Names` of go-multihash), keyed by lower-case names.  The
orchestrator only relies on its lookup contract. -/
def multihashNames : List (String × Nat) :=
  [("sha1", 0x11), ("sha2-256", 0x12), ("sha2-512", 0x13),
   ("sha3-512", 0x14), ("sha3-384", 0x15), ("sha3-256", 0x16),
   ("sha3-224", 0x17), ("keccak-256", 0x1b), ("blake2b-256", 0xb220)]

/-- Registry lookup: `multihash.Names[name]` with its two-valued map
access (`code, ok`). -/
def lookupHashFun (name : String) : Option Nat :=
  (multihashNames.find? (fun kv => kv.1 == name)).map (fun kv => kv.2)

/-- Modelled from the spec: `strings.ToLower` (Go standard library,
outside `src/`), restricted to the ASCII lowering relevant to registry
names — the spec only requires that `HashFun` be resolved
case-insensitively against the registry's lower-case keys. -/
def charToLower (c : Char) : Char :=
  if 'A' ≤ c ∧ c ≤ 'Z' then Char.ofNat (c.toNat + 32) else c

/-- Lower-case a whole string, character by character. -/
def strToLower (s : String) : String := ⟨s.data.map charToLower⟩

/-- A CID prefix (`cid.Prefix` of go-cid): identifier version, codec,
hash function and digest length. -/
structure CidPrefix where
  Version : Int
  Codec : Nat
  MhType : Nat
  MhLength : Int
deriving DecidableEq, Repr

/-- The multicodec code for dag-protobuf nodes. -/
def dagProtobufCode : Nat := 0x70

/-- The multihash code for sha2-256. -/
def sha2_256Code : Nat := 0x12

/-- Modelled from the spec: `merkledag.PrefixForCidVersion` (defined
outside `src/`) — builds the identifier-version prefix for CID version 0
or 1 and rejects any other version ("invalid identifier-version request",
spec §7).  `FromFiles` wraps the failure as a "bad CID Version" error. -/
def PrefixForCidVersion (v : Int) : Except GoErr CidPrefix :=
  if v = 0 then .ok ⟨0, dagProtobufCode, sha2_256Code, -1⟩
  else if v = 1 then .ok ⟨1, dagProtobufCode, sha2_256Code, -1⟩
  else .error (.badCidVersion v)

/-- The configuration surface of the content DAG builder
(`ipfsadd.Adder`), as installed by `FromFiles`: the seven option fields
plus the CID builder prefix. -/
structure IpfsAdderCfg where
  Hidden : Bool
  Trickle : Bool
  RawLeaves : Bool
  Wrap : Bool
  Chunker : String
  Progress : Bool
  CidBuilder : CidPrefix
deriving DecidableEq, Repr

/-- One observable action of a run, in program order. -/
inductive Event where
  /-- The call `ipfsadd.NewAdder` returned successfully. -/
  | newAdder : Event
  /-- The builder was configured (fields + CID builder prefix installed). -/
  | configBuilder (cfg : IpfsAdderCfg) : Event
  /-- The builder operation `ipfsAdder.AddFile` was called on the named file. -/
  | addFile (name : String) : Event
  /-- A progress event for the named file was emitted on the output queue. -/
  | progress (name : String) : Event
  /-- The builder operation `ipfsAdder.Finalize()` was called. -/
  | builderFinalize : Event
  /-- The call `dgs.Finalize(ctx, root)` was made on the cluster DAG service. -/
  | dgsFinalize (root : Nat) : Event
  /-- The deferred `close(a.output)` ran. -/
  | closeOutput : Event
  /-- The deferred `a.cancel()` ran. -/
  | cancelCtx : Event
deriving DecidableEq, Repr

/-- The outcome of one iteration's interaction with the file source and
the builder, before the implicit end-of-sequence: `addFile` in Go first
pulls `fs.NextFile()` and then calls `ipfsAdder.AddFile(f)`. -/
inductive StepOutcome where
  /-- The source's `NextFile` yielded a file and `AddFile` succeeded. -/
  | yieldOk (name : String) : StepOutcome
  /-- The source's `NextFile` yielded a file and `AddFile` failed. -/
  | yieldAddErr (name : String) (e : GoErr) : StepOutcome
  /-- The source's `NextFile` failed with an error other than `io.EOF`. -/
  | srcErr (e : GoErr) : StepOutcome
deriving DecidableEq, Repr

/-- A `files.File`: a media type plus the finite, ordered, non-restartable
sequence of per-iteration outcomes it produces; after the list is
exhausted `NextFile` returns `io.EOF`. -/
structure File where
  mediatype : String
  steps : List StepOutcome
deriving DecidableEq, Repr

/-- A `multipart.Reader`, abstracted to the sequence of outcomes its
parts produce once wrapped as a `files.MultipartFile`. -/
structure MultipartReader where
  steps : List StepOutcome
deriving DecidableEq, Repr

/-- The wrapper `files.MultipartFile` that `FromMultipart` builds around a
`multipart.Reader`. -/
structure MultipartFile where
  Mediatype : String
  Reader : MultipartReader
  closed : Bool := false
deriving DecidableEq, Repr

/-- The `files.File` view of a `MultipartFile`: its `NextFile` sequence is
the reader's part sequence. -/
def MultipartFile.toFile (f : MultipartFile) : File :=
  ⟨f.Mediatype, f.Reader.steps⟩

/-- The behavior of the external collaborators during one call of the
ingestion entry point. -/
structure Env where
  /-- Whether the context supplied by the caller is already Done at entry. -/
  callerCancelled : Bool
  /-- When `some k`, the internal context becomes Done before loop iteration
  `k` (cancellation by the caller or by timeout, observed by the
  `select`/`ctx.Done()` check); `none`: never cancelled externally. -/
  cancelAt : Option Nat
  /-- The error, if any, returned by `ipfsadd.NewAdder`. -/
  newAdderErr : Option GoErr
  /-- The result of `ipfsAdder.Finalize()`: the raw content root CID
  (abstracted as a `Nat`) or an error. -/
  builderFin : Except GoErr Nat
  /-- The behavior of `dgs.Finalize`: cluster root or error, as a function
  of the raw root it receives. -/
  dgsFin : Nat → Except GoErr Nat

/-- The mutable single-use state of an `Adder`: whether `setContext` has
installed the internal context, whether that context is cancelled, and
whether the output channel has been closed. -/
structure AdderState where
  ctxSet : Bool
  ctxCancelled : Bool
  outputClosed : Bool
deriving DecidableEq, Repr

/-- The state of a freshly constructed `Adder`: no context yet, output
channel open. -/
def AdderState.fresh : AdderState := ⟨false, false, false⟩

/-- An `Adder` as returned by `New`: its mutable state, its parameters,
and whether the output channel was created internally together with the
background consumer that drains it (`out == nil` case of `New`). -/
structure Adder where
  st : AdderState
  params : AddParams
  outputInternal : Bool
  drainConsumer : Bool
deriving DecidableEq, Repr

/-- Constructor `New(ds, p, out)`: when the caller supplies no output channel
(`outProvided = false`), an internal channel is created and a background
goroutine draining and discarding all output is started. -/
def New (p : AddParams) (outProvided : Bool) : Adder :=
  { st := AdderState.fresh
    params := p
    outputInternal := !outProvided
    drainConsumer := !outProvided }

/-- Whether the internal context is Done at the top of loop iteration
`i` (the `select { case <-a.ctx.Done() ... }` check). -/
def ctxDoneAt (cancelAt : Option Nat) (i : Nat) : Bool :=
  match cancelAt with
  | some k => decide (k ≤ i)
  | none => false

/-- The `for { select ... addFile ... } }` loop of `FromFiles`, started at
iteration index `i`: at the top of each iteration the context is checked;
otherwise `addFile` pulls the next file and feeds it to the builder.
`io.EOF` (the step list exhausted) ends the loop normally (`none`); any
other error is returned (`some e`).  The returned trace records the
`AddFile` calls in order, and the progress events the builder emits on
each successful add when progress reporting is enabled. -/
def runLoop (cancelAt : Option Nat) (progress : Bool) :
    List StepOutcome → Nat → Option GoErr × List Event
  | [], i =>
    if ctxDoneAt cancelAt i then (some .canceled, []) else (none, [])
  | s :: rest, i =>
    if ctxDoneAt cancelAt i then (some .canceled, [])
    else
      match s with
      | .srcErr e => (some e, [])
      | .yieldAddErr name e => (some e, [.addFile name])
      | .yieldOk name =>
        let r := runLoop cancelAt progress rest (i + 1)
        (r.1, (Event.addFile name ::
               (if progress then [Event.progress name] else [])) ++ r.2)

/-- The body of `FromFiles` after the reuse guard has passed and the two
defers (`a.cancel()`, `close(a.output)`) have been registered: create the
builder, configure it, resolve the prefix, run the add loop, then
finalize the builder and hand the raw root to `dgs.Finalize`.  Returns
the `(*cid.Cid, error)` result and the trace of the work performed. -/
def fromFilesCore (p : AddParams) (env : Env) (f : File) :
    Except GoErr Nat × List Event :=
  match env.newAdderErr with
  | some e => (.error e, [])
  | none =>
    match PrefixForCidVersion p.CidVersion with
    | .error e => (.error e, [.newAdder])
    | .ok pfx0 =>
      match lookupHashFun (strToLower p.HashFun) with
      | none => (.error (.unrecognizedHashFun p.HashFun), [.newAdder])
      | some code =>
        let pfx : CidPrefix := { pfx0 with MhType := code, MhLength := -1 }
        let cfg : IpfsAdderCfg :=
          ⟨p.Hidden, p.Layout == "trickle", p.RawLeaves, p.Wrap,
           p.Chunker, p.Progress, pfx⟩
        let lr := runLoop env.cancelAt p.Progress f.steps 0
        match lr.1 with
        | some e => (.error e, .newAdder :: .configBuilder cfg :: lr.2)
        | none =>
          match env.builderFin with
          | .error e =>
            (.error e,
             .newAdder :: .configBuilder cfg :: (lr.2 ++ [.builderFinalize]))
          | .ok root =>
            match env.dgsFin root with
            | .error e =>
              (.error e,
               .newAdder :: .configBuilder cfg ::
                 (lr.2 ++ [.builderFinalize, .dgsFinalize root]))
            | .ok clusterRoot =>
              (.ok clusterRoot,
               .newAdder :: .configBuilder cfg ::
                 (lr.2 ++ [.builderFinalize, .dgsFinalize root]))

/-- The result of one call of the ingestion entry point: the returned
`(*cid.Cid, error)` value, the trace of observable actions, and the
adder's state after the call. -/
structure RunResult where
  result : Except GoErr Nat
  events : List Event
  state : AdderState
deriving Repr

/-- The value of `a.ctx.Err() != nil` right after `setContext(ctx)`: if an
internal context is already installed (`ctxSet`) its own cancelled state
decides; otherwise the freshly derived context is Done exactly when the
caller's context already is. -/
def entryCancelled (st : AdderState) (env : Env) : Bool :=
  if st.ctxSet then st.ctxCancelled else env.callerCancelled

/-- Method `(a *Adder) FromFiles(ctx, f)`: `setContext` installs the internal
context derived from `ctx` only if none is set yet; if the internal
context already has an error (second call, or first call with an
already-Done caller context) return `ctx.Err()` immediately — before the
defers are registered, so nothing is closed or cancelled on this path.
Otherwise run the body; the deferred `close(a.output)` and `a.cancel()`
run on every exit of the body, in that (LIFO) order. -/
def fromFiles (st : AdderState) (p : AddParams) (env : Env) (f : File) :
    RunResult :=
  let cancelled0 := entryCancelled st env
  if cancelled0 then
    { result := .error .canceled
      events := []
      state := ⟨true, cancelled0, st.outputClosed⟩ }
  else
    let core := fromFilesCore p env f
    { result := core.1
      events := core.2 ++ [.closeOutput, .cancelCtx]
      state := ⟨true, true, true⟩ }

/-- Method `(a *Adder) FromMultipart(ctx, r)`: wrap `r` in a
`files.MultipartFile` with media type "multipart/form-data", delegate to
`FromFiles`, and close the wrapper (deferred).  Returns the run result
and the wrapper file as left by the deferred `Close`. -/
def fromMultipart (st : AdderState) (p : AddParams) (env : Env)
    (r : MultipartReader) : RunResult × MultipartFile :=
  let f : MultipartFile := { Mediatype := "multipart/form-data", Reader := r }
  let res := fromFiles st p env f.toFile
  (res, { f with closed := true })

/-- The entry point on an `Adder` value as built by `New`. -/
def Adder.fromFiles (a : Adder) (env : Env) (f : File) : RunResult :=
  IpfsCluster.fromFiles a.st a.params env f

/-- Names of the `AddFile` calls in a trace, in order. -/
def addNames (es : List Event) : List String :=
  es.filterMap fun e =>
    match e with
    | .addFile n => some n
    | _ => none

/-- Names of the progress events in a trace, in order. -/
def progressNames (es : List Event) : List String :=
  es.filterMap fun e =>
    match e with
    | .progress n => some n
    | _ => none

/-- Whether an event is a `dgs.Finalize` call. -/
def isDgsFin : Event → Bool
  | .dgsFinalize _ => true
  | _ => false

/-- Whether an event is a builder `Finalize` call. -/
def isBuilderFin : Event → Bool
  | .builderFinalize => true
  | _ => false

/-- Whether an event is a builder configuration. -/
def isConfig : Event → Bool
  | .configBuilder _ => true
  | _ => false

/-- Whether an event is an `AddFile` call. -/
def isAddFile : Event → Bool
  | .addFile _ => true
  | _ => false

/-- Number of `dgs.Finalize` calls in a trace. -/
def dgsFinCount (es : List Event) : Nat :=
  (es.filter isDgsFin).length

/-- Number of `ipfsAdder.Finalize` calls in a trace. -/
def builderFinCount (es : List Event) : Nat :=
  (es.filter isBuilderFin).length

/-- Number of `configBuilder` events in a trace. -/
def configCount (es : List Event) : Nat :=
  (es.filter isConfig).length

/-- The builder configuration `FromFiles` installs, given the resolved
prefix components: the seven option assignments plus the CID builder
prefix with the looked-up hash code and default digest length. -/
def mkCfg (p : AddParams) (pfx : CidPrefix) (code : Nat) : IpfsAdderCfg :=
  ⟨p.Hidden, p.Layout == "trickle", p.RawLeaves, p.Wrap, p.Chunker,
   p.Progress, { pfx with MhType := code, MhLength := -1 }⟩

/-- A sample parameter set used to instantiate the theorems on concrete
inputs. -/
def sampleParams : AddParams :=
  ⟨false, "balanced", false, false, "size-262144", true, 1, "sha2-256", 0⟩

/-- A sample collaborator behavior: nothing cancelled, builder finalize
returns root 7, cluster finalize maps a root to its successor. -/
def sampleEnv : Env :=
  ⟨false, none, none, .ok 7, fun n => .ok (n + 1)⟩

/-- A sample file source yielding one file. -/
def sampleFile : File := ⟨"files", [.yieldOk "a"]⟩

/-- The prefix `PrefixForCidVersion` yields for version 1. -/
def samplePrefix : CidPrefix := ⟨1, dagProtobufCode, sha2_256Code, -1⟩

/-- A caller context that is already Done when the entry point is first
called. -/
def cancelledEnv : Env :=
  ⟨true, none, none, .ok 7, fun n => .ok (n + 1)⟩

/-- A parameter set naming a hash function absent from the registry. -/
def badHashParams : AddParams :=
  ⟨false, "balanced", false, false, "size-262144", true, 1, "no-such-hash", 0⟩

/-- A parameter set requesting an unsupported CID version. -/
def badVersionParams : AddParams :=
  ⟨false, "balanced", false, false, "size-262144", true, 7, "sha2-256", 0⟩

/-- A collaborator behavior whose context is cancelled before loop
iteration 1. -/
def cancelAt1Env : Env :=
  ⟨false, some 1, none, .ok 7, fun n => .ok (n + 1)⟩

/-- A file source yielding three files. -/
def threeFiles : File :=
  ⟨"files", [.yieldOk "a", .yieldOk "b", .yieldOk "c"]⟩

/-- A copy of `sampleParams` with a different value in the field standing for the
options `FromFiles` never reads. -/
def extraParams : AddParams := { sampleParams with extra := 5 }

/-! ## Basic run lemmas -/

/-- On the guard exit (`a.ctx.Err() != nil`), `FromFiles` returns the
context's error, performs no observable action, and leaves the output
channel as it was. -/
theorem fromFiles_guard (st : AdderState) (p : AddParams) (env : Env)
    (f : File) (h : entryCancelled st env = true) :
    fromFiles st p env f =
      ⟨.error .canceled, [], ⟨true, true, st.outputClosed⟩⟩ := by
  simp [fromFiles, h]

/-- When the guard passes, `FromFiles` runs the body and the two defers
(`close(a.output)` then `a.cancel()`) fire on exit. -/
theorem fromFiles_pass (st : AdderState) (p : AddParams) (env : Env)
    (f : File) (h : entryCancelled st env = false) :
    fromFiles st p env f =
      ⟨(fromFilesCore p env f).1,
       (fromFilesCore p env f).2 ++ [.closeOutput, .cancelCtx],
       ⟨true, true, true⟩⟩ := by
  simp [fromFiles, h]

/-- After any call of `FromFiles`, the internal context is installed and
cancelled: the instance is spent. -/
theorem fromFiles_spent (st : AdderState) (p : AddParams) (env : Env)
    (f : File) :
    (fromFiles st p env f).state.ctxSet = true ∧
      (fromFiles st p env f).state.ctxCancelled = true := by
  by_cases h : entryCancelled st env = true
  · rw [fromFiles_guard st p env f h]; exact ⟨rfl, rfl⟩
  · rw [fromFiles_pass st p env f (by simpa using h)]; exact ⟨rfl, rfl⟩

/-- A call on a spent instance returns `context.Canceled` and does
nothing. -/
theorem fromFiles_on_spent (st : AdderState) (p : AddParams) (env : Env)
    (f : File) (h1 : st.ctxSet = true) (h2 : st.ctxCancelled = true) :
    fromFiles st p env f =
      ⟨.error .canceled, [], ⟨true, true, st.outputClosed⟩⟩ :=
  fromFiles_guard st p env f (by simp [entryCancelled, h1, h2])

/-- C1: a second call of the ingestion entry point — `FromFiles` or
`FromMultipart`, after a first call through either — returns the internal
context's `Canceled` error and produces an empty trace: no work, and in
particular zero calls to the content DAG builder or the cluster DAG
service. -/
theorem C1_single_use (p : AddParams) (env₁ env₂ : Env) (f₁ f₂ : File)
    (r r₂ : MultipartReader) :
    ((fromFiles (fromFiles AdderState.fresh p env₁ f₁).state p env₂ f₂).result
        = .error .canceled ∧
      (fromFiles (fromFiles AdderState.fresh p env₁ f₁).state p env₂ f₂).events
        = []) ∧
    ((fromMultipart (fromFiles AdderState.fresh p env₁ f₁).state p env₂ r₂).1.result
        = .error .canceled ∧
      (fromMultipart (fromFiles AdderState.fresh p env₁ f₁).state p env₂ r₂).1.events
        = []) ∧
    ((fromFiles (fromMultipart AdderState.fresh p env₁ r).1.state p env₂ f₂).result
        = .error .canceled ∧
      (fromFiles (fromMultipart AdderState.fresh p env₁ r).1.state p env₂ f₂).events
        = []) := by
  obtain ⟨hs₁, hc₁⟩ := fromFiles_spent AdderState.fresh p env₁ f₁
  obtain ⟨hs₂, hc₂⟩ :=
    fromFiles_spent AdderState.fresh p env₁ (MultipartFile.toFile
      ⟨"multipart/form-data", r, false⟩)
  refine ⟨?_, ?_, ?_⟩
  · rw [fromFiles_on_spent _ p env₂ f₂ hs₁ hc₁]; exact ⟨rfl, rfl⟩
  · show ((fromFiles _ p env₂ _).result = _ ∧ (fromFiles _ p env₂ _).events = _)
    rw [fromFiles_on_spent _ p env₂ _ hs₁ hc₁]; exact ⟨rfl, rfl⟩
  · have hm : (fromMultipart AdderState.fresh p env₁ r).1
        = fromFiles AdderState.fresh p env₁
            (MultipartFile.toFile ⟨"multipart/form-data", r, false⟩) := rfl
    rw [hm, fromFiles_on_spent _ p env₂ f₂ hs₂ hc₂]
    exact ⟨rfl, rfl⟩

/-! ## Loop trace lemmas -/

/-- The add loop only performs `AddFile` calls and progress emissions: it
never finalizes anything, configures anything, or closes anything. -/
theorem runLoop_events_mem :
    ∀ (steps : List StepOutcome) (c : Option Nat) (prog : Bool) (i : Nat)
      (e : Event), e ∈ (runLoop c prog steps i).2 →
      (∃ n, e = .addFile n) ∨ ∃ n, e = .progress n := by
  intro steps
  induction steps with
  | nil =>
    intro c prog i e he
    simp only [runLoop] at he
    split at he <;> simp at he
  | cons s rest ih =>
    intro c prog i e he
    simp only [runLoop] at he
    split at he
    · simp at he
    · cases s with
      | srcErr er => simp at he
      | yieldAddErr n er =>
        simp at he
        exact Or.inl ⟨n, he⟩
      | yieldOk n =>
        simp only [List.mem_append] at he
        rcases he with h | h
        · split at h <;> simp at h
          · rcases h with h | h
            · exact Or.inl ⟨n, h⟩
            · exact Or.inr ⟨n, h⟩
          · exact Or.inl ⟨n, h⟩
        · exact ih c prog (i + 1) e h

/-- The loop trace contains no `dgs.Finalize` call. -/
theorem runLoop_filter_dgs (c : Option Nat) (prog : Bool)
    (steps : List StepOutcome) (i : Nat) :
    (runLoop c prog steps i).2.filter isDgsFin = [] := by
  rw [List.filter_eq_nil_iff]
  intro e he
  rcases runLoop_events_mem steps c prog i e he with ⟨n, rfl⟩ | ⟨n, rfl⟩ <;>
    simp [isDgsFin]

/-- The loop trace contains no builder `Finalize` call. -/
theorem runLoop_filter_builderFin (c : Option Nat) (prog : Bool)
    (steps : List StepOutcome) (i : Nat) :
    (runLoop c prog steps i).2.filter isBuilderFin = [] := by
  rw [List.filter_eq_nil_iff]
  intro e he
  rcases runLoop_events_mem steps c prog i e he with ⟨n, rfl⟩ | ⟨n, rfl⟩ <;>
    simp [isBuilderFin]

/-- The loop trace contains no builder-configuration event. -/
theorem runLoop_filter_config (c : Option Nat) (prog : Bool)
    (steps : List StepOutcome) (i : Nat) :
    (runLoop c prog steps i).2.filter isConfig = [] := by
  rw [List.filter_eq_nil_iff]
  intro e he
  rcases runLoop_events_mem steps c prog i e he with ⟨n, rfl⟩ | ⟨n, rfl⟩ <;>
    simp [isConfig]

/-- No `dgs.Finalize` event occurs in the loop trace. -/
theorem dgsFinalize_not_mem_runLoop (c : Option Nat) (prog : Bool)
    (steps : List StepOutcome) (i : Nat) (root : Nat) :
    Event.dgsFinalize root ∉ (runLoop c prog steps i).2 := by
  intro h
  rcases runLoop_events_mem steps c prog i _ h with ⟨n, hn⟩ | ⟨n, hn⟩ <;>
    exact Event.noConfusion hn

/-! ## Branch characterizations of the body under a valid configuration -/

theorem fromFilesCore_loopErr (p : AddParams) (env : Env) (f : File)
    (pfx : CidPrefix) (code : Nat) (e : GoErr)
    (h1 : env.newAdderErr = none)
    (h2 : PrefixForCidVersion p.CidVersion = .ok pfx)
    (h3 : lookupHashFun (strToLower p.HashFun) = some code)
    (hl : (runLoop env.cancelAt p.Progress f.steps 0).1 = some e) :
    fromFilesCore p env f =
      (.error e, .newAdder :: .configBuilder (mkCfg p pfx code) ::
        (runLoop env.cancelAt p.Progress f.steps 0).2) := by
  simp [fromFilesCore, mkCfg, h1, h2, h3, hl]

theorem fromFilesCore_bfErr (p : AddParams) (env : Env) (f : File)
    (pfx : CidPrefix) (code : Nat) (e : GoErr)
    (h1 : env.newAdderErr = none)
    (h2 : PrefixForCidVersion p.CidVersion = .ok pfx)
    (h3 : lookupHashFun (strToLower p.HashFun) = some code)
    (hl : (runLoop env.cancelAt p.Progress f.steps 0).1 = none)
    (hb : env.builderFin = .error e) :
    fromFilesCore p env f =
      (.error e, .newAdder :: .configBuilder (mkCfg p pfx code) ::
        ((runLoop env.cancelAt p.Progress f.steps 0).2
          ++ [.builderFinalize])) := by
  simp [fromFilesCore, mkCfg, h1, h2, h3, hl, hb]

theorem fromFilesCore_dgsErr (p : AddParams) (env : Env) (f : File)
    (pfx : CidPrefix) (code : Nat) (root : Nat) (e : GoErr)
    (h1 : env.newAdderErr = none)
    (h2 : PrefixForCidVersion p.CidVersion = .ok pfx)
    (h3 : lookupHashFun (strToLower p.HashFun) = some code)
    (hl : (runLoop env.cancelAt p.Progress f.steps 0).1 = none)
    (hb : env.builderFin = .ok root)
    (hd : env.dgsFin root = .error e) :
    fromFilesCore p env f =
      (.error e, .newAdder :: .configBuilder (mkCfg p pfx code) ::
        ((runLoop env.cancelAt p.Progress f.steps 0).2
          ++ [.builderFinalize, .dgsFinalize root])) := by
  simp [fromFilesCore, mkCfg, h1, h2, h3, hl, hb, hd]

theorem fromFilesCore_dgsOk (p : AddParams) (env : Env) (f : File)
    (pfx : CidPrefix) (code : Nat) (root clusterRoot : Nat)
    (h1 : env.newAdderErr = none)
    (h2 : PrefixForCidVersion p.CidVersion = .ok pfx)
    (h3 : lookupHashFun (strToLower p.HashFun) = some code)
    (hl : (runLoop env.cancelAt p.Progress f.steps 0).1 = none)
    (hb : env.builderFin = .ok root)
    (hd : env.dgsFin root = .ok clusterRoot) :
    fromFilesCore p env f =
      (.ok clusterRoot, .newAdder :: .configBuilder (mkCfg p pfx code) ::
        ((runLoop env.cancelAt p.Progress f.steps 0).2
          ++ [.builderFinalize, .dgsFinalize root])) := by
  simp [fromFilesCore, mkCfg, h1, h2, h3, hl, hb, hd]

/-- A trace with an empty `isDgsFin` filter has no `dgs.Finalize` event. -/
theorem no_dgs_of_filter_nil {es : List Event}
    (h : es.filter isDgsFin = []) (root : Nat) :
    Event.dgsFinalize root ∉ es := by
  intro hm
  have hmem : Event.dgsFinalize root ∈ es.filter isDgsFin :=
    List.mem_filter.2 ⟨hm, by simp [isDgsFin]⟩
  rw [h] at hmem
  exact absurd hmem (List.not_mem_nil _)

/-- The constructor `PrefixForCidVersion` only fails with the bad-version error for the
requested version. -/
theorem PrefixForCidVersion_error (v : Int) (e : GoErr)
    (h : PrefixForCidVersion v = .error e) : e = .badCidVersion v := by
  unfold PrefixForCidVersion at h
  split at h
  · exact Except.noConfusion h
  · split at h
    · exact Except.noConfusion h
    · injection h with h
      exact h.symm

/-- A successful `PrefixForCidVersion` yields a prefix carrying the
requested version, with default digest length. -/
theorem PrefixForCidVersion_ok (v : Int) (pfx : CidPrefix)
    (h : PrefixForCidVersion v = .ok pfx) :
    pfx.Version = v ∧ pfx.MhLength = -1 := by
  unfold PrefixForCidVersion at h
  split at h
  next hv =>
    injection h with h
    subst h
    exact ⟨hv.symm, rfl⟩
  next =>
    split at h
    next hv =>
      injection h with h
      subst h
      exact ⟨hv.symm, rfl⟩
    next => exact Except.noConfusion h

/-- C2: the cluster DAG service's `Finalize` is called at most once per
run; whenever it is called, the builder's own `Finalize` has succeeded
with the very root handed over, the loop has terminated normally, and
the two finalize calls sit adjacent at the end of the work trace; if the
loop aborts with an error (file source, incremental add, or
cancellation), neither finalize is called and the entry point returns
nil with that error; if the builder's finalize fails, the cluster
finalize is never called and the error is returned. -/
theorem C2_finalize_discipline (st : AdderState) (p : AddParams)
    (env : Env) (f : File) (pfx : CidPrefix) (code : Nat)
    (hrun : entryCancelled st env = false)
    (h1 : env.newAdderErr = none)
    (h2 : PrefixForCidVersion p.CidVersion = .ok pfx)
    (h3 : lookupHashFun (strToLower p.HashFun) = some code) :
    dgsFinCount (fromFiles st p env f).events ≤ 1 ∧
    (∀ root, Event.dgsFinalize root ∈ (fromFiles st p env f).events →
      env.builderFin = .ok root ∧
      (runLoop env.cancelAt p.Progress f.steps 0).1 = none ∧
      ∃ l, (fromFiles st p env f).events =
        l ++ [.builderFinalize, .dgsFinalize root,
              .closeOutput, .cancelCtx]) ∧
    (∀ e, (runLoop env.cancelAt p.Progress f.steps 0).1 = some e →
      (fromFiles st p env f).result = .error e ∧
      builderFinCount (fromFiles st p env f).events = 0 ∧
      dgsFinCount (fromFiles st p env f).events = 0) ∧
    (∀ e, (runLoop env.cancelAt p.Progress f.steps 0).1 = none →
      env.builderFin = .error e →
      (fromFiles st p env f).result = .error e ∧
      dgsFinCount (fromFiles st p env f).events = 0) := by
  rw [fromFiles_pass st p env f hrun]
  cases hl : (runLoop env.cancelAt p.Progress f.steps 0).1 with
  | some e₀ =>
    rw [fromFilesCore_loopErr p env f pfx code e₀ h1 h2 h3 hl]
    refine ⟨?_, ?_, ?_, ?_⟩
    · simp [dgsFinCount, List.filter_append, List.filter_cons,
            runLoop_filter_dgs, isDgsFin]
    · intro root hmem
      have hnm := dgsFinalize_not_mem_runLoop env.cancelAt p.Progress
        f.steps 0 root
      simp [hnm] at hmem
    · intro e he
      injection he with he
      subst he
      refine ⟨rfl, ?_, ?_⟩
      · simp [builderFinCount, List.filter_append, List.filter_cons,
              runLoop_filter_builderFin, isBuilderFin]
      · simp [dgsFinCount, List.filter_append, List.filter_cons,
              runLoop_filter_dgs, isDgsFin]
    · intro e he
      exact Option.noConfusion he
  | none =>
    cases hb : env.builderFin with
    | error e₀ =>
      rw [fromFilesCore_bfErr p env f pfx code e₀ h1 h2 h3 hl hb]
      refine ⟨?_, ?_, ?_, ?_⟩
      · simp [dgsFinCount, List.filter_append, List.filter_cons,
              runLoop_filter_dgs, isDgsFin]
      · intro root hmem
        have hnm := dgsFinalize_not_mem_runLoop env.cancelAt p.Progress
          f.steps 0 root
        simp [hnm] at hmem
      · intro e he
        exact Option.noConfusion he
      · intro e _ hb'
        injection hb' with hb'
        subst hb'
        refine ⟨rfl, ?_⟩
        simp [dgsFinCount, List.filter_append, List.filter_cons,
              runLoop_filter_dgs, isDgsFin]
    | ok root₀ =>
      cases hd : env.dgsFin root₀ with
      | error e₀ =>
        rw [fromFilesCore_dgsErr p env f pfx code root₀ e₀ h1 h2 h3 hl hb hd]
        refine ⟨?_, ?_, ?_, ?_⟩
        · simp [dgsFinCount, List.filter_append, List.filter_cons,
                runLoop_filter_dgs, isDgsFin]
        · intro root hmem
          have hnm := dgsFinalize_not_mem_runLoop env.cancelAt p.Progress
            f.steps 0 root
          simp [hnm] at hmem
          subst hmem
          refine ⟨rfl, rfl, ?_⟩
          refine ⟨.newAdder :: .configBuilder (mkCfg p pfx code) ::
            (runLoop env.cancelAt p.Progress f.steps 0).2, ?_⟩
          simp
        · intro e he
          exact Option.noConfusion he
        · intro e _ hb'
          exact Except.noConfusion hb'
      | ok cr =>
        rw [fromFilesCore_dgsOk p env f pfx code root₀ cr h1 h2 h3 hl hb hd]
        refine ⟨?_, ?_, ?_, ?_⟩
        · simp [dgsFinCount, List.filter_append, List.filter_cons,
                runLoop_filter_dgs, isDgsFin]
        · intro root hmem
          have hnm := dgsFinalize_not_mem_runLoop env.cancelAt p.Progress
            f.steps 0 root
          simp [hnm] at hmem
          subst hmem
          refine ⟨rfl, rfl, ?_⟩
          refine ⟨.newAdder :: .configBuilder (mkCfg p pfx code) ::
            (runLoop env.cancelAt p.Progress f.steps 0).2, ?_⟩
          simp
        · intro e he
          exact Option.noConfusion he
        · intro e _ hb'
          exact Except.noConfusion hb'

/-- Witness for `C2_finalize_discipline` at a concrete run. -/
theorem C2_finalize_discipline_witness :
    entryCancelled AdderState.fresh sampleEnv = false ∧
    sampleEnv.newAdderErr = none ∧
    PrefixForCidVersion sampleParams.CidVersion = .ok samplePrefix ∧
    lookupHashFun (strToLower sampleParams.HashFun) = some sha2_256Code ∧
    dgsFinCount (fromFiles AdderState.fresh sampleParams sampleEnv
      sampleFile).events ≤ 1 :=
  ⟨rfl, rfl, rfl, by decide,
   (C2_finalize_discipline AdderState.fresh sampleParams sampleEnv
     sampleFile samplePrefix sha2_256Code rfl rfl rfl (by decide)).1⟩

/-! ## Projection lemmas for the trace name extractors -/

@[simp] theorem addNames_nil : addNames [] = [] := rfl

@[simp] theorem addNames_cons_newAdder (l : List Event) :
    addNames (Event.newAdder :: l) = addNames l := rfl

@[simp] theorem addNames_cons_config (c : IpfsAdderCfg) (l : List Event) :
    addNames (Event.configBuilder c :: l) = addNames l := rfl

@[simp] theorem addNames_cons_addFile (n : String) (l : List Event) :
    addNames (Event.addFile n :: l) = n :: addNames l := rfl

@[simp] theorem addNames_cons_progress (n : String) (l : List Event) :
    addNames (Event.progress n :: l) = addNames l := rfl

@[simp] theorem addNames_cons_builderFinalize (l : List Event) :
    addNames (Event.builderFinalize :: l) = addNames l := rfl

@[simp] theorem addNames_cons_dgsFinalize (r : Nat) (l : List Event) :
    addNames (Event.dgsFinalize r :: l) = addNames l := rfl

@[simp] theorem addNames_cons_closeOutput (l : List Event) :
    addNames (Event.closeOutput :: l) = addNames l := rfl

@[simp] theorem addNames_cons_cancelCtx (l : List Event) :
    addNames (Event.cancelCtx :: l) = addNames l := rfl

@[simp] theorem addNames_append (l₁ l₂ : List Event) :
    addNames (l₁ ++ l₂) = addNames l₁ ++ addNames l₂ := by
  simp [addNames]

@[simp] theorem progressNames_nil : progressNames [] = [] := rfl

@[simp] theorem progressNames_cons_newAdder (l : List Event) :
    progressNames (Event.newAdder :: l) = progressNames l := rfl

@[simp] theorem progressNames_cons_config (c : IpfsAdderCfg)
    (l : List Event) :
    progressNames (Event.configBuilder c :: l) = progressNames l := rfl

@[simp] theorem progressNames_cons_addFile (n : String) (l : List Event) :
    progressNames (Event.addFile n :: l) = progressNames l := rfl

@[simp] theorem progressNames_cons_progress (n : String) (l : List Event) :
    progressNames (Event.progress n :: l) = n :: progressNames l := rfl

@[simp] theorem progressNames_cons_builderFinalize (l : List Event) :
    progressNames (Event.builderFinalize :: l) = progressNames l := rfl

@[simp] theorem progressNames_cons_dgsFinalize (r : Nat) (l : List Event) :
    progressNames (Event.dgsFinalize r :: l) = progressNames l := rfl

@[simp] theorem progressNames_cons_closeOutput (l : List Event) :
    progressNames (Event.closeOutput :: l) = progressNames l := rfl

@[simp] theorem progressNames_cons_cancelCtx (l : List Event) :
    progressNames (Event.cancelCtx :: l) = progressNames l := rfl

@[simp] theorem progressNames_append (l₁ l₂ : List Event) :
    progressNames (l₁ ++ l₂) = progressNames l₁ ++ progressNames l₂ := by
  simp [progressNames]

/-! ## Configuration-error characterizations -/

/-- With a valid CID version but an unknown hash function, the body stops
at the registry lookup: no loop iteration, no finalize, only the error. -/
theorem fromFilesCore_badHash (p : AddParams) (env : Env) (f : File)
    (pfx : CidPrefix)
    (h1 : env.newAdderErr = none)
    (h2 : PrefixForCidVersion p.CidVersion = .ok pfx)
    (hh : lookupHashFun (strToLower p.HashFun) = none) :
    fromFilesCore p env f =
      (.error (.unrecognizedHashFun p.HashFun), [.newAdder]) := by
  simp [fromFilesCore, h1, h2, hh]

/-- With an invalid CID version, the body stops at the prefix
construction. -/
theorem fromFilesCore_badVersion (p : AddParams) (env : Env) (f : File)
    (e : GoErr)
    (h1 : env.newAdderErr = none)
    (h2 : PrefixForCidVersion p.CidVersion = .error e) :
    fromFilesCore p env f = (.error e, [.newAdder]) := by
  simp [fromFilesCore, h1, h2]

/-- C3: when the (case-insensitive) registry lookup of `HashFun` fails,
`FromFiles` returns a configuration error — the unrecognized-hash error,
or the bad-CID-version error when the version is also invalid, since that
check comes first — with zero `AddFile` calls: the whole trace is just
the builder creation followed by the deferred queue close and context
cancel, so the error is determined before the output queue is closed. -/
theorem C3_unknown_hashfun (st : AdderState) (p : AddParams) (env : Env)
    (f : File)
    (hrun : entryCancelled st env = false)
    (h1 : env.newAdderErr = none)
    (hh : lookupHashFun (strToLower p.HashFun) = none) :
    ((fromFiles st p env f).result
        = .error (.unrecognizedHashFun p.HashFun) ∨
      (fromFiles st p env f).result
        = .error (.badCidVersion p.CidVersion)) ∧
    (fromFiles st p env f).events
      = [.newAdder, .closeOutput, .cancelCtx] ∧
    addNames (fromFiles st p env f).events = [] := by
  rw [fromFiles_pass st p env f hrun]
  cases h2 : PrefixForCidVersion p.CidVersion with
  | error e =>
    have he := PrefixForCidVersion_error _ _ h2
    subst he
    rw [fromFilesCore_badVersion p env f _ h1 h2]
    exact ⟨Or.inr rfl, rfl, rfl⟩
  | ok pfx =>
    rw [fromFilesCore_badHash p env f pfx h1 h2 hh]
    exact ⟨Or.inl rfl, rfl, rfl⟩

/-- Witness for `C3_unknown_hashfun` at a concrete unknown name. -/
theorem C3_unknown_hashfun_witness :
    entryCancelled AdderState.fresh sampleEnv = false ∧
    sampleEnv.newAdderErr = none ∧
    lookupHashFun (strToLower badHashParams.HashFun) = none ∧
    (fromFiles AdderState.fresh badHashParams sampleEnv sampleFile).events
      = [.newAdder, .closeOutput, .cancelCtx] :=
  ⟨rfl, rfl, by decide,
   (C3_unknown_hashfun AdderState.fresh badHashParams sampleEnv sampleFile
     rfl rfl (by decide)).2.1⟩

/-- If the first `k` outcomes are all successful adds and the context
becomes Done at iteration `i + k`, the loop performs exactly `k`
`AddFile` calls — cancellation is observed only between files — and then
aborts with the cancellation error at the top of iteration `i + k`. -/
theorem runLoop_cancel_aux (prog : Bool) :
    ∀ (k : Nat) (steps : List StepOutcome) (i : Nat),
      (∀ j, j < k → ∃ n, steps.get? j = some (.yieldOk n)) →
      k ≤ steps.length →
      (runLoop (some (i + k)) prog steps i).1 = some .canceled ∧
      (addNames (runLoop (some (i + k)) prog steps i).2).length = k := by
  intro k
  induction k with
  | zero =>
    intro steps i _ _
    cases steps <;> simp [runLoop, ctxDoneAt]
  | succ k ih =>
    intro steps i hsteps hlen
    match steps with
    | [] => simp at hlen
    | s :: rest =>
      obtain ⟨n, hn⟩ := hsteps 0 (Nat.succ_pos k)
      simp at hn
      subst hn
      have hdone : ctxDoneAt (some (i + (k + 1))) i = false := by
        simp [ctxDoneAt]
      have harith : i + (k + 1) = (i + 1) + k := by omega
      have hsteps' : ∀ j, j < k → ∃ m, rest.get? j = some (.yieldOk m) := by
        intro j hj
        have := hsteps (j + 1) (by omega)
        simpa using this
      have hlen' : k ≤ rest.length := by
        simp at hlen
        omega
      obtain ⟨ih1, ih2⟩ := ih rest (i + 1) hsteps' hlen'
      rw [← harith] at ih1 ih2
      refine ⟨?_, ?_⟩
      · simpa [runLoop, hdone] using ih1
      · cases prog <;> simp [runLoop, hdone, ih2]


/-- C4: when the internal token becomes Done before loop iteration `k`
(and the first `k` source items add successfully), the run performs
exactly the `k` pre-cancellation `AddFile` calls — the token is checked
at the top of every iteration, so cancellation is observed between files
— then returns the cancellation error without finalizing: neither the
builder's `Finalize` nor the cluster DAG service's `Finalize` is ever
invoked. -/
theorem C4_cancellation (st : AdderState) (p : AddParams) (env : Env)
    (f : File) (pfx : CidPrefix) (code : Nat) (k : Nat)
    (hrun : entryCancelled st env = false)
    (h1 : env.newAdderErr = none)
    (h2 : PrefixForCidVersion p.CidVersion = .ok pfx)
    (h3 : lookupHashFun (strToLower p.HashFun) = some code)
    (hc : env.cancelAt = some k)
    (hsteps : ∀ j, j < k → ∃ n, f.steps.get? j = some (.yieldOk n))
    (hlen : k ≤ f.steps.length) :
    (fromFiles st p env f).result = .error .canceled ∧
    (addNames (fromFiles st p env f).events).length = k ∧
    builderFinCount (fromFiles st p env f).events = 0 ∧
    dgsFinCount (fromFiles st p env f).events = 0 := by
  obtain ⟨ha1, ha2⟩ := runLoop_cancel_aux p.Progress k f.steps 0 hsteps hlen
  rw [Nat.zero_add] at ha1 ha2
  have hl : (runLoop env.cancelAt p.Progress f.steps 0).1
      = some .canceled := by
    rw [hc]
    exact ha1
  rw [fromFiles_pass st p env f hrun,
      fromFilesCore_loopErr p env f pfx code .canceled h1 h2 h3 hl]
  refine ⟨rfl, ?_, ?_, ?_⟩
  · rw [hc]
    simpa using ha2
  · simp [builderFinCount, List.filter_append, List.filter_cons,
          runLoop_filter_builderFin, isBuilderFin]
  · simp [dgsFinCount, List.filter_append, List.filter_cons,
          runLoop_filter_dgs, isDgsFin]

/-- Witness for `C4_cancellation`: cancellation before iteration 1 with a
three-file source stops after exactly one `AddFile`. -/
theorem C4_cancellation_witness :
    entryCancelled AdderState.fresh cancelAt1Env = false ∧
    cancelAt1Env.cancelAt = some 1 ∧
    (∀ j, j < 1 → ∃ n, threeFiles.steps.get? j = some (.yieldOk n)) ∧
    ((fromFiles AdderState.fresh sampleParams cancelAt1Env
        threeFiles).result = .error .canceled ∧
      (addNames (fromFiles AdderState.fresh sampleParams cancelAt1Env
        threeFiles).events).length = 1) :=
  ⟨rfl, rfl, fun j hj => ⟨"a", by interval_cases j <;> rfl⟩,
   ⟨(C4_cancellation AdderState.fresh sampleParams cancelAt1Env threeFiles
      samplePrefix sha2_256Code 1 rfl rfl rfl (by decide) rfl
      (fun j hj => by interval_cases j <;> exact ⟨"a", rfl⟩)
      (by decide)).1,
    (C4_cancellation AdderState.fresh sampleParams cancelAt1Env threeFiles
      samplePrefix sha2_256Code 1 rfl rfl rfl (by decide) rfl
      (fun j hj => by interval_cases j <;> exact ⟨"a", rfl⟩)
      (by decide)).2.1⟩⟩

/-- When every pulled file adds successfully and the context is never
cancelled, the loop terminates normally via end-of-sequence, having
called `AddFile` once per item in yield order and emitted the progress
events (when enabled) in the same order. -/
theorem runLoop_allOk (prog : Bool) :
    ∀ (names : List String) (i : Nat),
      (runLoop none prog (names.map .yieldOk) i).1 = none ∧
      addNames (runLoop none prog (names.map .yieldOk) i).2 = names ∧
      progressNames (runLoop none prog (names.map .yieldOk) i).2 =
        (if prog then names else []) := by
  intro names
  induction names with
  | nil =>
    intro i
    cases prog <;> simp [runLoop, ctxDoneAt]
  | cons n rest ih =>
    intro i
    obtain ⟨ih1, ih2, ih3⟩ := ih (i + 1)
    refine ⟨?_, ?_, ?_⟩
    · simpa [runLoop, ctxDoneAt] using ih1
    · cases prog <;> simp [runLoop, ctxDoneAt, ih2]
    · cases prog <;> simp [runLoop, ctxDoneAt] <;> simpa using ih3

/-- C5: for a file source yielding the items `names` in order, the
builder receives exactly one `AddFile` call per item in that exact
order; when progress reporting is enabled, the progress events appear on
the output queue in the same order; end-of-sequence ends the loop
normally — it is not an error — and the run proceeds to exactly one
builder `Finalize`. -/
theorem C5_ordering (st : AdderState) (p : AddParams) (env : Env)
    (f : File) (names : List String) (pfx : CidPrefix) (code : Nat)
    (hrun : entryCancelled st env = false)
    (h1 : env.newAdderErr = none)
    (h2 : PrefixForCidVersion p.CidVersion = .ok pfx)
    (h3 : lookupHashFun (strToLower p.HashFun) = some code)
    (hc : env.cancelAt = none)
    (hf : f.steps = names.map .yieldOk) :
    addNames (fromFiles st p env f).events = names ∧
    progressNames (fromFiles st p env f).events =
      (if p.Progress then names else []) ∧
    (runLoop env.cancelAt p.Progress f.steps 0).1 = none ∧
    builderFinCount (fromFiles st p env f).events = 1 := by
  obtain ⟨ha1, ha2, ha3⟩ := runLoop_allOk p.Progress names 0
  have hl : (runLoop env.cancelAt p.Progress f.steps 0).1 = none := by
    rw [hc, hf]
    exact ha1
  rw [fromFiles_pass st p env f hrun]
  cases hb : env.builderFin with
  | error e₀ =>
    rw [fromFilesCore_bfErr p env f pfx code e₀ h1 h2 h3 hl hb, hc, hf]
    refine ⟨?_, ?_, ha1, ?_⟩
    · simpa using ha2
    · simpa using ha3
    · simp [builderFinCount, List.filter_append, List.filter_cons,
            runLoop_filter_builderFin, isBuilderFin]
  | ok root₀ =>
    cases hd : env.dgsFin root₀ with
    | error e₀ =>
      rw [fromFilesCore_dgsErr p env f pfx code root₀ e₀ h1 h2 h3 hl hb hd,
          hc, hf]
      refine ⟨?_, ?_, ha1, ?_⟩
      · simpa using ha2
      · simpa using ha3
      · simp [builderFinCount, List.filter_append, List.filter_cons,
              runLoop_filter_builderFin, isBuilderFin, isDgsFin]
    | ok cr =>
      rw [fromFilesCore_dgsOk p env f pfx code root₀ cr h1 h2 h3 hl hb hd,
          hc, hf]
      refine ⟨?_, ?_, ha1, ?_⟩
      · simpa using ha2
      · simpa using ha3
      · simp [builderFinCount, List.filter_append, List.filter_cons,
              runLoop_filter_builderFin, isBuilderFin, isDgsFin]

/-- Witness for `C5_ordering`: three files are added in order and their
progress events appear in the same order. -/
theorem C5_ordering_witness :
    entryCancelled AdderState.fresh sampleEnv = false ∧
    threeFiles.steps = ["a", "b", "c"].map .yieldOk ∧
    (addNames (fromFiles AdderState.fresh sampleParams sampleEnv
        threeFiles).events = ["a", "b", "c"] ∧
      progressNames (fromFiles AdderState.fresh sampleParams sampleEnv
        threeFiles).events = ["a", "b", "c"]) :=
  ⟨rfl, rfl,
   ⟨(C5_ordering AdderState.fresh sampleParams sampleEnv threeFiles
       ["a", "b", "c"] samplePrefix sha2_256Code rfl rfl rfl (by decide)
       rfl rfl).1,
    by
      have h := (C5_ordering AdderState.fresh sampleParams sampleEnv
        threeFiles ["a", "b", "c"] samplePrefix sha2_256Code rfl rfl rfl
        (by decide) rfl rfl).2.1
      simpa [sampleParams] using h⟩⟩

/-- C6 counterexample: there is a cancellation exit of the entry point on
which the output queue is NOT closed — the first call with an
already-cancelled caller context returns the cancellation error through
the entry guard, before the deferred close/cancel handlers are
registered: no close event is emitted, the output channel stays open, so
listeners (and the internal background consumer, when one exists) are
left waiting, contrary to the claim that every cancellation exit closes
the queue. -/
theorem C6_counterexample :
    (fromFiles AdderState.fresh sampleParams cancelledEnv
      sampleFile).result = .error .canceled ∧
    (fromFiles AdderState.fresh sampleParams cancelledEnv
      sampleFile).state.outputClosed = false ∧
    (fromFiles AdderState.fresh sampleParams cancelledEnv
      sampleFile).events = [] :=
  ⟨rfl, rfl, rfl⟩

/-- C6 (amended): on every exit path that passes the entry guard —
success, configuration error, iteration error, finalize error, or
mid-run cancellation — the deferred handlers close the output queue and
cancel the internal token, the trace ending with exactly those two
actions; an exit through the entry guard (second call, or first call
with an already-cancelled context) leaves the queue untouched, though
the internal token is cancelled after every call, so a later call always
observes a cancelled token. -/
theorem C6_close_and_cancel (st : AdderState) (p : AddParams) (env : Env)
    (f : File) (hrun : entryCancelled st env = false) :
    (fromFiles st p env f).state.outputClosed = true ∧
    (fromFiles st p env f).state.ctxCancelled = true ∧
    (∃ l, (fromFiles st p env f).events
      = l ++ [.closeOutput, .cancelCtx]) := by
  rw [fromFiles_pass st p env f hrun]
  exact ⟨rfl, rfl, ⟨(fromFilesCore p env f).2, rfl⟩⟩

/-- Witness for `C6_close_and_cancel` at a concrete successful run. -/
theorem C6_close_and_cancel_witness :
    entryCancelled AdderState.fresh sampleEnv = false ∧
    (fromFiles AdderState.fresh sampleParams sampleEnv
      sampleFile).state.outputClosed = true :=
  ⟨rfl, (C6_close_and_cancel AdderState.fresh sampleParams sampleEnv
    sampleFile rfl).1⟩

/-- Under a valid configuration the work trace starts with the builder
creation and exactly one builder configuration, and nothing after it is
another configuration: the prefix is installed once and stays fixed. -/
theorem fromFilesCore_valid_shape (p : AddParams) (env : Env) (f : File)
    (pfx : CidPrefix) (code : Nat)
    (h1 : env.newAdderErr = none)
    (h2 : PrefixForCidVersion p.CidVersion = .ok pfx)
    (h3 : lookupHashFun (strToLower p.HashFun) = some code) :
    ∃ tail, (fromFilesCore p env f).2 =
        .newAdder :: .configBuilder (mkCfg p pfx code) :: tail ∧
      tail.filter isConfig = [] := by
  cases hl : (runLoop env.cancelAt p.Progress f.steps 0).1 with
  | some e₀ =>
    rw [fromFilesCore_loopErr p env f pfx code e₀ h1 h2 h3 hl]
    exact ⟨_, rfl, runLoop_filter_config _ _ _ _⟩
  | none =>
    cases hb : env.builderFin with
    | error e₀ =>
      rw [fromFilesCore_bfErr p env f pfx code e₀ h1 h2 h3 hl hb]
      refine ⟨_, rfl, ?_⟩
      simp [List.filter_append, runLoop_filter_config, isConfig]
    | ok root₀ =>
      cases hd : env.dgsFin root₀ with
      | error e₀ =>
        rw [fromFilesCore_dgsErr p env f pfx code root₀ e₀ h1 h2 h3 hl hb hd]
        refine ⟨_, rfl, ?_⟩
        simp [List.filter_append, runLoop_filter_config, isConfig]
      | ok cr =>
        rw [fromFilesCore_dgsOk p env f pfx code root₀ cr h1 h2 h3 hl hb hd]
        refine ⟨_, rfl, ?_⟩
        simp [List.filter_append, runLoop_filter_config, isConfig]

/-- C7: an invalid CID version yields the bad-version configuration
error before any file is touched — no `AddFile` call, and the builder
prefix is never installed; with a valid version and a resolved hash
function, exactly one builder configuration is installed, carrying the
prefix built from `CidVersion` with the looked-up hash code attached
under default-length semantics (`MhLength = -1`), fixed for the entire
ingestion. -/
theorem C7_prefix_setup (st : AdderState) (p : AddParams) (env : Env)
    (f : File)
    (hrun : entryCancelled st env = false)
    (h1 : env.newAdderErr = none) :
    (∀ e, PrefixForCidVersion p.CidVersion = .error e →
      (fromFiles st p env f).result
        = .error (.badCidVersion p.CidVersion) ∧
      addNames (fromFiles st p env f).events = [] ∧
      configCount (fromFiles st p env f).events = 0) ∧
    (∀ pfx code, PrefixForCidVersion p.CidVersion = .ok pfx →
      lookupHashFun (strToLower p.HashFun) = some code →
      configCount (fromFiles st p env f).events = 1 ∧
      Event.configBuilder (mkCfg p pfx code)
        ∈ (fromFiles st p env f).events ∧
      (mkCfg p pfx code).CidBuilder.MhType = code ∧
      (mkCfg p pfx code).CidBuilder.MhLength = -1 ∧
      (mkCfg p pfx code).CidBuilder.Version = p.CidVersion) := by
  constructor
  · intro e he
    have hbad := PrefixForCidVersion_error _ _ he
    subst hbad
    rw [fromFiles_pass st p env f hrun,
        fromFilesCore_badVersion p env f _ h1 he]
    exact ⟨rfl, rfl, rfl⟩
  · intro pfx code h2 h3
    obtain ⟨tail, hsh, htail⟩ :=
      fromFilesCore_valid_shape p env f pfx code h1 h2 h3
    rw [fromFiles_pass st p env f hrun, hsh]
    refine ⟨?_, ?_, rfl, rfl, (PrefixForCidVersion_ok _ _ h2).1⟩
    · simp [configCount, List.filter_append, List.filter_cons, htail,
            isConfig]
    · simp

/-- Witness for `C7_prefix_setup`: valid and invalid versions at
concrete parameters. -/
theorem C7_prefix_setup_witness :
    entryCancelled AdderState.fresh sampleEnv = false ∧
    PrefixForCidVersion sampleParams.CidVersion = .ok samplePrefix ∧
    configCount (fromFiles AdderState.fresh sampleParams sampleEnv
      sampleFile).events = 1 ∧
    (fromFiles AdderState.fresh badVersionParams sampleEnv
      sampleFile).result = .error (.badCidVersion 7) :=
  ⟨rfl, rfl,
   ((C7_prefix_setup AdderState.fresh sampleParams sampleEnv sampleFile
      rfl rfl).2 samplePrefix sha2_256Code rfl (by decide)).1,
   ((C7_prefix_setup AdderState.fresh badVersionParams sampleEnv
      sampleFile rfl rfl).1 (.badCidVersion 7) rfl).1⟩

/-- C8: constructing without an output channel creates the internal
queue together with the background consumer that drains and discards all
events, and the run of the entry point — result, trace and final state —
is identical whether or not a caller-supplied listener queue exists. -/
theorem C8_queue_decoupling (p : AddParams) (env : Env) (f : File)
    (b₁ b₂ : Bool) :
    (New p false).outputInternal = true ∧
    (New p false).drainConsumer = true ∧
    (New p true).outputInternal = false ∧
    (New p true).drainConsumer = false ∧
    Adder.fromFiles (New p b₁) env f = Adder.fromFiles (New p b₂) env f :=
  ⟨rfl, rfl, rfl, rfl, rfl⟩

/-- C9: `FromMultipart` builds the `files.MultipartFile` wrapper with
media type "multipart/form-data" around the reader, delegates to
`FromFiles`, and closes the wrapper afterwards; its run result is
exactly `FromFiles` applied to that wrapper. -/
theorem C9_multipart_refines (st : AdderState) (p : AddParams)
    (env : Env) (r : MultipartReader) :
    (fromMultipart st p env r).1 =
      fromFiles st p env
        (MultipartFile.mk "multipart/form-data" r false).toFile ∧
    (fromMultipart st p env r).2 =
      { Mediatype := "multipart/form-data", Reader := r, closed := true } :=
  ⟨rfl, rfl⟩

/-- C10: `FromFiles` reads only the eight documented option fields of
`AddParams`: two parameter values that agree on `Hidden`, `Layout`,
`RawLeaves`, `Wrap`, `Chunker`, `Progress`, `CidVersion` and `HashFun`
(whatever other options they carry) produce identical runs — result,
trace and state — and `New` stores the caller's parameter value
unchanged; the embedding of `FromFiles` is a pure function, never
writing to the parameters. -/
theorem C10_params_frame (st : AdderState) (env : Env) (f : File)
    (p₁ p₂ : AddParams) (b : Bool)
    (h1 : p₁.Hidden = p₂.Hidden) (h2 : p₁.Layout = p₂.Layout)
    (h3 : p₁.RawLeaves = p₂.RawLeaves) (h4 : p₁.Wrap = p₂.Wrap)
    (h5 : p₁.Chunker = p₂.Chunker) (h6 : p₁.Progress = p₂.Progress)
    (h7 : p₁.CidVersion = p₂.CidVersion) (h8 : p₁.HashFun = p₂.HashFun) :
    fromFiles st p₁ env f = fromFiles st p₂ env f ∧
    (New p₁ b).params = p₁ := by
  obtain ⟨H1, L1, R1, W1, Ch1, P1, V1, F1, E1⟩ := p₁
  obtain ⟨H2, L2, R2, W2, Ch2, P2, V2, F2, E2⟩ := p₂
  simp only at h1 h2 h3 h4 h5 h6 h7 h8
  subst h1 h2 h3 h4 h5 h6 h7 h8
  exact ⟨rfl, rfl⟩

/-- Witness for `C10_params_frame`: changing only the unread options
leaves the run unchanged. -/
theorem C10_params_frame_witness :
    sampleParams.HashFun = extraParams.HashFun ∧
    fromFiles AdderState.fresh sampleParams sampleEnv sampleFile =
      fromFiles AdderState.fresh extraParams sampleEnv sampleFile :=
  ⟨rfl, (C10_params_frame AdderState.fresh sampleEnv sampleFile
    sampleParams extraParams true rfl rfl rfl rfl rfl rfl rfl rfl).1⟩

end IpfsCluster
